import Mathlib

/-!
Shallow embedding of the routing core in `src/nvidia_router_core.py`
(classes `Policy`, `RouterConfig`, `NVIDIALLMRouterCore`) and theorems about
the routing pipeline.  Python dictionaries holding parsed JSON are modelled
as association lists over the value type `JVal`; Python numbers are modelled
as rationals; network calls are modelled as explicit oracle functions passed
to the routing functions; a Python function that can raise is modelled with
`Except`.
-/

/-- JSON-like values: the Python objects a parsed request body can hold.
Numbers (Python ints and floats) are modelled as rationals. -/
inductive JVal where
  | vNull
  | vBool (b : Bool)
  | vNum (q : ℚ)
  | vStr (s : String)
  | vArr (xs : List JVal)
  | vObj (kvs : List (String × JVal))

/-- Python truthiness `bool(v)` for the modelled values: `None`, `False`, `0`,
`""`, `[]` and `{}` are falsy, everything else truthy. -/
def pyTruthy : JVal → Bool
  | .vNull => false
  | .vBool b => b
  | .vNum q => q != 0
  | .vStr s => s != ""
  | .vArr xs => !xs.isEmpty
  | .vObj kvs => !kvs.isEmpty

/-- A Python dict (such as a request body), modelled as an association list. -/
abbrev RequestBody := List (String × JVal)

/-- `d.get(k)` on a Python dict modelled as an association list: the value of
the first entry with key `k`, if any. -/
def lookupKey (kvs : List (String × JVal)) (k : String) : Option JVal :=
  (kvs.find? (fun p => p.1 == k)).map Prod.snd

/-- Removal of key `k` (`del d[k]`, guarded by `k in d`). -/
def eraseKey (kvs : RequestBody) (k : String) : RequestBody :=
  kvs.filter (fun p => p.1 != k)

/-- `d[k] = v`: replace the value at `k` in place when the key is present,
append the entry otherwise (Python dicts keep insertion order). -/
def setKey (kvs : RequestBody) (k : String) (v : JVal) : RequestBody :=
  if kvs.any (fun p => p.1 == k) then
    kvs.map (fun p => if p.1 == k then (k, v) else p)
  else kvs ++ [(k, v)]

/-- `@dataclass Llm` (nvidia_router_core.py, lines 43-49): one downstream
backend of a policy. -/
structure Llm where
  name : String
  api_base : String
  api_key : String
  model : String
deriving DecidableEq

/-- `@dataclass Policy` (lines 51-56): a routing policy, with the Triton
classification URL and the ordered backend list. -/
structure Policy where
  name : String
  url : String
  llms : List Llm
deriving DecidableEq

/-- Python `str.strip()` default whitespace (the ASCII part; `str.strip` also
strips some Unicode spaces, which no claim exercises). -/
def pyWhitespace (c : Char) : Bool :=
  c = ' ' || c = '\t' || c = '\n' || c = '\r' || c = Char.ofNat 11 || c = Char.ofNat 12

/-- Python `s.strip()`: drop leading and trailing whitespace. -/
def pyStrip (s : String) : String :=
  ⟨((s.data.dropWhile pyWhitespace).reverse.dropWhile pyWhitespace).reverse⟩

/-- `Policy.get_llm_by_name` (lines 58-63): first backend whose stripped name
equals the stripped query. -/
def Policy.get_llm_by_name (p : Policy) (name : String) : Option Llm :=
  p.llms.find? (fun llm => pyStrip llm.name == pyStrip name)

/-- `Policy.get_llm_by_index` (lines 65-69): positional lookup, `None` out of
range.  The source guards `0 <= index < len(self.llms)`; the index is a `Nat`
here, so only the upper bound is live. -/
def Policy.get_llm_by_index (p : Policy) (index : Nat) : Option Llm :=
  if index < p.llms.length then p.llms[index]? else none

/-- `Policy.get_llm_name_by_index` (lines 71-74). -/
def Policy.get_llm_name_by_index (p : Policy) (index : Nat) : Option String :=
  (p.get_llm_by_index index).map Llm.name

/-- `@dataclass RouterConfig` (lines 76-79). -/
structure RouterConfig where
  policies : List Policy

/-- `RouterConfig.get_policy_by_name` (lines 112-117): first policy whose
stripped name equals the stripped query. -/
def RouterConfig.get_policy_by_name (cfg : RouterConfig) (name : String) :
    Option Policy :=
  cfg.policies.find? (fun policy => pyStrip policy.name == pyStrip name)

/-- `class RoutingStrategy(Enum)` (lines 31-33). -/
inductive RoutingStrategy where
  | manual
  | triton
deriving DecidableEq

/-- `@dataclass NimLlmRouterParams` (lines 35-41).  `policy`, `model` and
`threshold` keep whatever JSON value the request carried, as the Python does. -/
structure NimLlmRouterParams where
  policy : JVal
  routing_strategy : Option RoutingStrategy
  model : Option JVal
  threshold : JVal

/-- The exceptions the routing core can raise, one constructor per `raise`
site of `nvidia_router_core.py` (plus `typeError` for the `AttributeError` /
`TypeError` Python raises when a dynamically-typed access hits a value of the
wrong shape, and `emptyProbabilities` for the `ValueError` `max([])` raises). -/
inductive RouterErr where
  | missingParams
  | policyNotFound (name : String)
  | noModelSpecified
  | modelNotFound (name : JVal)
  | noStrategy
  | tritonError (status : Nat) (text : String)
  | noOutputs
  | emptyProbabilities
  | llmNotFound (index : Nat)
  | llmServiceError (status : Nat) (text : String)
  | typeError

/-- `extract_nim_llm_router_params` (lines 158-181): `Except` models the
possible `AttributeError` (a truthy non-dict `nim-llm-router` value has no
`.get`), `Option` the function's `None` returns. -/
def extract_nim_llm_router_params (request_body : RequestBody) :
    Except RouterErr (Option NimLlmRouterParams) :=
  match lookupKey request_body "nim-llm-router" with
  | none => .ok none
  | some nim_params =>
    if pyTruthy nim_params then
      match nim_params with
      | .vObj kvs =>
        match lookupKey kvs "policy" with
        | none => .ok none
        | some policy =>
          if pyTruthy policy then
            let routing_strategy : Option RoutingStrategy :=
              match lookupKey kvs "routing_strategy" with
              | some (.vStr "manual") => some .manual
              | some (.vStr "triton") => some .triton
              | _ => none
            .ok (some { policy := policy, routing_strategy := routing_strategy,
                        model := lookupKey kvs "model",
                        threshold := (lookupKey kvs "threshold").getD (.vNum (1/2)) })
          else .ok none
      | _ => .error .typeError
    else .ok none

/-- `remove_nim_llm_router_params` (lines 183-188): a copy of the body with
the routing block removed. -/
def remove_nim_llm_router_params (request_body : RequestBody) : RequestBody :=
  eraseKey request_body "nim-llm-router"

/-- `extract_messages` (lines 190-192): `request_body.get('messages', [])`. -/
def extract_messages (request_body : RequestBody) : JVal :=
  (lookupKey request_body "messages").getD (.vArr [])

/-- `modify_model_in_request` (lines 265-269): a copy of the body with the
`model` field overwritten. -/
def modify_model_in_request (request_body : RequestBody) (model : String) :
    RequestBody :=
  setKey request_body "model" (.vStr model)

/-- `get_last_message_for_triton` (lines 202-206): the `content` of the last
message (empty string when absent), the empty string when `messages` is falsy;
a truthy non-list, or a last element that is not a dict, raises in Python
(`TypeError` / `AttributeError`), modelled by `typeError`. -/
def get_last_message_for_triton (messages : JVal) : Except RouterErr JVal :=
  match messages with
  | .vArr ms =>
    match ms.getLast? with
    | none => .ok (.vStr "")
    | some (.vObj kvs) => .ok ((lookupKey kvs "content").getD (.vStr ""))
    | some _ => .error .typeError
  | other => if pyTruthy other then .error .typeError else .ok (.vStr "")

/-- `@dataclass InferInputTensor` (lines 119-125). -/
structure InferInputTensor where
  name : String
  datatype : String
  shape : List Int
  data : List (List JVal)

/-- `@dataclass InferInputs` (lines 127-130). -/
structure InferInputs where
  inputs : List InferInputTensor

/-- `@dataclass TritonOutput` (lines 132-135). -/
structure TritonOutput where
  data : List ℚ

/-- `@dataclass TritonResponse` (lines 137-140). -/
structure TritonResponse where
  outputs : List TritonOutput

/-- The `triton_request` dict built in `choose_model_with_triton`
(lines 213-223). -/
def buildTritonRequest (text_input : JVal) : InferInputs :=
  ⟨[⟨"INPUT", "BYTES", [1, 1], [[text_input]]⟩]⟩

/-- The HTTP POST to the Triton server, as an oracle: given the URL and the
request, either a non-success status with the response text, or the parsed
response body. -/
abbrev ClassifierNet := String → InferInputs → Except (Nat × String) TritonResponse

/-- The HTTP POST to the chosen backend, as an oracle. -/
abbrev LlmNet := String → RequestBody → Except (Nat × String) JVal

/-- Python `max(probabilities)` (line 253): fold keeping the current value
unless the next element is strictly greater. -/
def pyMax : ℚ → List ℚ → ℚ
  | x, [] => x
  | x, y :: ys => pyMax (if x < y then y else x) ys

/-- Python `probabilities.index(v)` (line 253): index of the first element
equal to `v`. -/
def pyIndex (l : List ℚ) (v : ℚ) : Nat :=
  l.findIdx (fun a => a == v)

/-- `choose_model_with_triton` (lines 208-256): build the Triton request from
the input text, POST it to `policy.url`, and reduce the first output tensor's
flat vector to the index of its first maximum.  `threshold` is accepted and
never read, as in the source. -/
def choose_model_with_triton (net : ClassifierNet) (policy : Policy)
    (text_input : JVal) (threshold : JVal) : Except RouterErr Nat :=
  match net policy.url (buildTritonRequest text_input) with
  | .error (status, text) => .error (.tritonError status text)
  | .ok triton_response =>
    match triton_response.outputs with
    | [] => .error .noOutputs
    | output_tensor :: _ =>
      match output_tensor.data with
      | [] => .error .emptyProbabilities
      | p :: ps => .ok (pyIndex (p :: ps) (pyMax p ps))

/-- `choose_model_manual` (lines 258-263): index of the first backend whose
name equals the supplied value under Python `==` (a non-string value equals no
string, hence never matches). -/
def choose_model_manual (policy : Policy) (model_name : JVal) :
    Except RouterErr Nat :=
  match policy.llms.findIdx? (fun llm =>
      match model_name with
      | .vStr s => llm.name == s
      | _ => false) with
  | some i => .ok i
  | none => .error (.modelNotFound model_name)

/-- `route_request` (lines 271-344).  The two network calls are the oracle
parameters.  Line 294's `text_input = convert_messages_to_text_input(messages)`
is a pure computation whose value is never used afterwards and is omitted.
A truthy non-string policy name makes `get_policy_by_name` call `.strip()` on
a non-string, an `AttributeError`, modelled by `typeError`. -/
def route_request (cfg : RouterConfig) (net : ClassifierNet) (llmNet : LlmNet)
    (request_body : RequestBody) :
    Except RouterErr (JVal × String × Option String) :=
  -- Step 1: extract nim-llm-router parameters (a raised exception propagates)
  match extract_nim_llm_router_params request_body with
  | .error e => .error e
  | .ok none => .error .missingParams
  | .ok (some nim_params) =>
    -- Step 2: get policy
    match nim_params.policy with
    | .vStr pname =>
      match cfg.get_policy_by_name pname with
      | none => .error (.policyNotFound pname)
      | some policy =>
        -- Step 3: extract messages
        let messages := extract_messages request_body
        -- Step 4: choose model based on routing strategy
        match (
          match nim_params.routing_strategy with
          | some .manual =>
            match nim_params.model with
            | some m =>
              if pyTruthy m then choose_model_manual policy m
              else .error .noModelSpecified
            | none => .error .noModelSpecified
          | some .triton =>
            match get_last_message_for_triton messages with
            | .error e => .error e
            | .ok triton_text =>
              choose_model_with_triton net policy triton_text nim_params.threshold
          | none => .error .noStrategy : Except RouterErr Nat) with
        | .error e => .error e
        | .ok model_index =>
          -- Step 5: get chosen LLM
          match policy.get_llm_by_index model_index with
          | none => .error (.llmNotFound model_index)
          | some chosen_llm =>
            let chosen_classifier := policy.get_llm_name_by_index model_index
            -- Step 6: prepare request for downstream LLM
            let cleaned_body := remove_nim_llm_router_params request_body
            let final_body := modify_model_in_request cleaned_body chosen_llm.model
            -- Step 7: make request to chosen LLM
            match llmNet (chosen_llm.api_base ++ "/v1/chat/completions") final_body with
            | .error (status, text) => .error (.llmServiceError status text)
            | .ok response_data =>
              .ok (response_data, chosen_llm.model, chosen_classifier)
    | _ => .error .typeError

/-- One hex digit, lower case, as Python's `\uXXXX` escapes use. -/
def hexDigit (n : Nat) : Char :=
  if n < 10 then Char.ofNat (48 + n) else Char.ofNat (87 + n)

/-- A `\uXXXX` escape for a code unit. -/
def uEscape (n : Nat) : List Char :=
  ['\\', 'u', hexDigit (n / 4096 % 16), hexDigit (n / 256 % 16),
   hexDigit (n / 16 % 16), hexDigit (n % 16)]

/-- `json.dumps` escaping of one character (default `ensure_ascii=True`):
characters outside `0x20`-`0x7e` are escaped, astral ones as surrogate
pairs. -/
def escapeChar (c : Char) : List Char :=
  if c = '"' then ['\\', '"']
  else if c = '\\' then ['\\', '\\']
  else if c = '\n' then ['\\', 'n']
  else if c = '\r' then ['\\', 'r']
  else if c = '\t' then ['\\', 't']
  else if c.toNat < 32 ∨ 127 ≤ c.toNat then
    if c = Char.ofNat 8 then ['\\', 'b']
    else if c = Char.ofNat 12 then ['\\', 'f']
    else if c.toNat < 65536 then uEscape c.toNat
    else
      let v := c.toNat - 65536
      uEscape (55296 + v / 1024) ++ uEscape (56320 + v % 1024)
  else [c]

/-- `json.dumps` of a string: quoted, characters escaped. -/
def dumpStr (s : String) : List Char :=
  '"' :: (s.data.flatMap escapeChar) ++ ['"']

/-- Textual form of a number.  The source's numbers are Python ints/floats;
they are rationals here and this rendering does not reproduce CPython float
`repr` — no claim depends on how a number is rendered. -/
def dumpNum (q : ℚ) : List Char :=
  if q.den = 1 then (toString q.num).data
  else (toString q.num).data ++ '/' :: (toString q.den).data

mutual
/-- `json.dumps(v)` with CPython's default separators `", "` and `": "`,
as a character list (Python slices strings by code point). -/
def dumpsJ : JVal → List Char
  | .vNull => "null".data
  | .vBool true => "true".data
  | .vBool false => "false".data
  | .vNum q => dumpNum q
  | .vStr s => dumpStr s
  | .vArr xs => '[' :: dumpsArr xs ++ [']']
  | .vObj kvs => Char.ofNat 123 :: dumpsObj kvs ++ [Char.ofNat 125]

/-- Elements of a dumped JSON array, separated by `", "`. -/
def dumpsArr : List JVal → List Char
  | [] => []
  | [x] => dumpsJ x
  | x :: y :: xs => dumpsJ x ++ ',' :: ' ' :: dumpsArr (y :: xs)

/-- Entries of a dumped JSON object, `"key": value` separated by `", "`. -/
def dumpsObj : List (String × JVal) → List Char
  | [] => []
  | [(k, v)] => dumpStr k ++ ':' :: ' ' :: dumpsJ v
  | (k, v) :: e :: xs =>
    dumpStr k ++ ':' :: ' ' :: dumpsJ v ++ ',' :: ' ' :: dumpsObj (e :: xs)
end

/-- The truncation step of `convert_messages_to_text_input` (lines 197-199):
keep the final 2000 characters when the text is longer, else pass through. -/
def truncate2000 (text_input : List Char) : List Char :=
  if 2000 < text_input.length then text_input.drop (text_input.length - 2000)
  else text_input

/-- `convert_messages_to_text_input` (lines 194-200): `json.dumps` the
messages, then truncate to the last 2000 characters. -/
def convert_messages_to_text_input (messages : JVal) : List Char :=
  truncate2000 (dumpsJ messages)

/-- A well-typed chat message, per the source's `Dict[str, str]` annotation. -/
abbrev Message := List (String × String)

/-- The `JVal` a well-typed message parses to. -/
def jsonOfMessage (m : Message) : JVal :=
  .vObj (m.map (fun p => (p.1, .vStr p.2)))

/-- The `JVal` a well-typed message list parses to. -/
def jsonOfMessages (ms : List Message) : JVal :=
  .vArr (ms.map jsonOfMessage)

/-- A backend record as parsed from the YAML file, each required field
possibly missing (`llm_data['x']` raises `KeyError` when missing). -/
structure RawLlm where
  name : Option String
  api_base : Option String
  api_key : Option String
  model : Option String

/-- A policy record as parsed from the YAML file. -/
structure RawPolicy where
  name : Option String
  url : Option String
  llms : Option (List RawLlm)

/-- The `KeyError` a missing required configuration field raises. -/
inductive ConfigErr where
  | keyError (field : String)
deriving DecidableEq

/-- The body of `RouterConfig.load_config`'s inner loop (lines 96-102): read
the four required fields of one backend record, `KeyError` when one is
missing. -/
def loadLlm (llm_data : RawLlm) : Except ConfigErr Llm :=
  match llm_data.name with
  | none => .error (.keyError "name")
  | some name =>
    match llm_data.api_base with
    | none => .error (.keyError "api_base")
    | some api_base =>
      match llm_data.api_key with
      | none => .error (.keyError "api_key")
      | some api_key =>
        match llm_data.model with
        | none => .error (.keyError "model")
        | some model => .ok ⟨name, api_base, api_key, model⟩

/-- The body of `RouterConfig.load_config`'s outer loop (lines 94-108): the
backend list first, then the policy's `name` and `url`. -/
def loadPolicy (policy_data : RawPolicy) : Except ConfigErr Policy :=
  match policy_data.llms with
  | none => .error (.keyError "llms")
  | some llms_data => do
    let llms ← llms_data.mapM loadLlm
    match policy_data.name with
    | none => .error (.keyError "name")
    | some name =>
      match policy_data.url with
      | none => .error (.keyError "url")
      | some url => .ok ⟨name, url, llms⟩

/-- `RouterConfig.load_config` (lines 81-110), modelled from the parsed YAML
mapping's `policies` list onward (reading the file and substituting
`${NVIDIA_API_KEY}` in the raw text are not modelled; no claim depends on
them).  There is no check of any kind on policy names. -/
def RouterConfig.load_config (policies_data : List RawPolicy) :
    Except ConfigErr RouterConfig := do
  let policies ← policies_data.mapM loadPolicy
  .ok ⟨policies⟩

/-! ### Association-list lemmas shared by the theorems below -/

theorem lookupKey_cons (a : String × JVal) (t : List (String × JVal)) (k : String) :
    lookupKey (a :: t) k = if a.1 = k then some a.2 else lookupKey t k := by
  by_cases h : a.1 = k <;> simp [lookupKey, List.find?_cons, h]

theorem eraseKey_cons (a : String × JVal) (t : RequestBody) (k : String) :
    eraseKey (a :: t) k = if a.1 = k then eraseKey t k else a :: eraseKey t k := by
  by_cases h : a.1 = k <;> simp [eraseKey, List.filter_cons, h]

theorem lookupKey_eraseKey_self (kvs : RequestBody) (k : String) :
    lookupKey (eraseKey kvs k) k = none := by
  induction kvs with
  | nil => rfl
  | cons a t ih =>
    rw [eraseKey_cons]
    by_cases h : a.1 = k
    · rwa [if_pos h]
    · rw [if_neg h, lookupKey_cons, if_neg h]
      exact ih

theorem lookupKey_eraseKey_ne (kvs : RequestBody) (k q : String) (h : q ≠ k) :
    lookupKey (eraseKey kvs k) q = lookupKey kvs q := by
  induction kvs with
  | nil => rfl
  | cons a t ih =>
    rw [eraseKey_cons, lookupKey_cons]
    by_cases ha : a.1 = k
    · have haq : ¬ a.1 = q := fun hq => h (hq ▸ ha ▸ rfl)
      rw [if_pos ha, if_neg haq]
      exact ih
    · rw [if_neg ha, lookupKey_cons]
      by_cases haq : a.1 = q
      · rw [if_pos haq, if_pos haq]
      · rw [if_neg haq, if_neg haq]
        exact ih

theorem lookupKey_setKey_self (kvs : RequestBody) (k : String) (v : JVal) :
    lookupKey (setKey kvs k v) k = some v := by
  induction kvs with
  | nil => simp [setKey, lookupKey, List.find?_cons]
  | cons a t ih =>
    by_cases ha : a.1 = k
    · have : (a :: t).any (fun p => p.1 == k) = true := by simp [ha]
      rw [setKey, if_pos this, List.map_cons]
      simp only [ha, beq_self_eq_true, if_pos]
      rw [lookupKey_cons, if_pos rfl]
    · cases hany : t.any (fun p => p.1 == k) with
      | true =>
        have hall : (a :: t).any (fun p => p.1 == k) = true := by simp [hany]
        rw [setKey, if_pos hall, List.map_cons]
        have hbeq : (a.1 == k) = false := by simpa using ha
        rw [setKey, if_pos hany] at ih
        simp only [hbeq, Bool.false_eq_true, if_false, lookupKey_cons, if_neg ha]
        exact ih
      | false =>
        have hall : (a :: t).any (fun p => p.1 == k) = false := by
          simp [hany, ha]
        rw [setKey, if_neg (by simp [hall]), List.cons_append, lookupKey_cons,
          if_neg ha]
        rw [setKey, if_neg (by simp [hany])] at ih
        exact ih

theorem lookupKey_setKey_ne (kvs : RequestBody) (k q : String) (v : JVal)
    (h : q ≠ k) : lookupKey (setKey kvs k v) q = lookupKey kvs q := by
  have hkq : ¬ (k = q) := fun hq => h hq.symm
  induction kvs with
  | nil =>
    simp [setKey, lookupKey, List.find?_cons, hkq]
  | cons a t ih =>
    by_cases ha : a.1 = k
    · have hall : (a :: t).any (fun p => p.1 == k) = true := by simp [ha]
      rw [setKey, if_pos hall, List.map_cons]
      simp only [ha, beq_self_eq_true, if_pos]
      rw [lookupKey_cons, lookupKey_cons]
      have haq : ¬ a.1 = q := fun hq => h (hq ▸ ha ▸ rfl)
      rw [if_neg hkq, if_neg haq]
      -- remaining keys: the map leaves every entry with key ≠ k in place and
      -- rewrites entries with key k to (k, v); neither kind can match q
      clear hall ha ih
      induction t with
      | nil => rfl
      | cons b t2 ih2 =>
        rw [List.map_cons]
        by_cases hb : b.1 = k
        · simp only [hb, beq_self_eq_true, if_pos]
          rw [lookupKey_cons, lookupKey_cons]
          have hbq : ¬ b.1 = q := fun hq => h (hq ▸ hb ▸ rfl)
          rw [if_neg hkq, if_neg hbq]
          exact ih2
        · have hbeq : (b.1 == k) = false := by simpa using hb
          simp only [hbeq, Bool.false_eq_true, if_false, lookupKey_cons]
          by_cases hbq : b.1 = q
          · rw [if_pos hbq, if_pos hbq]
          · rw [if_neg hbq, if_neg hbq]
            exact ih2
    · cases hany : t.any (fun p => p.1 == k) with
      | true =>
        have hall : (a :: t).any (fun p => p.1 == k) = true := by simp [hany]
        rw [setKey, if_pos hall, List.map_cons]
        have hbeq : (a.1 == k) = false := by simpa using ha
        rw [setKey, if_pos hany] at ih
        simp only [hbeq, Bool.false_eq_true, if_false, lookupKey_cons]
        by_cases haq : a.1 = q
        · rw [if_pos haq, if_pos haq]
        · rw [if_neg haq, if_neg haq]
          exact ih
      | false =>
        have hall : (a :: t).any (fun p => p.1 == k) = false := by
          simp [hany, ha]
        rw [setKey, if_neg (by simp [hall]), List.cons_append, lookupKey_cons,
          lookupKey_cons]
        rw [setKey, if_neg (by simp [hany])] at ih
        by_cases haq : a.1 = q
        · rw [if_pos haq, if_pos haq]
        · rw [if_neg haq, if_neg haq]
          exact ih

/-- `get_llm_by_index` agrees with plain positional indexing. -/
theorem get_llm_by_index_eq (p : Policy) (i : Nat) :
    p.get_llm_by_index i = p.llms[i]? := by
  rw [Policy.get_llm_by_index]
  split
  · rfl
  · rename_i h
    exact (List.getElem?_eq_none (by omega)).symm

/-! ### Concrete fixtures used by witnesses and counterexamples -/

def llmA : Llm := ⟨"A", "https://a.example", "key-a", "model-a"⟩
def llmB : Llm := ⟨"B", "https://b.example", "key-b", "model-b"⟩
def llmC : Llm := ⟨"C", "https://c.example", "key-c", "model-c"⟩

def examplePolicy : Policy :=
  ⟨"task_router", "http://triton.example/infer", [llmA, llmB, llmC]⟩

def exampleConfig : RouterConfig := ⟨[examplePolicy]⟩

/-- The spec's example score vector `[0.1, 0.7, 0.2]`, scaled by 10 so the
witnesses evaluate by kernel reduction (rational normalization via `Nat.gcd`
does not kernel-reduce); the argmax is unchanged by scaling. -/
def exampleResponse : TritonResponse := ⟨[⟨[1, 7, 2]⟩]⟩

def constNet (resp : TritonResponse) : ClassifierNet := fun _ _ => .ok resp

def failNet : ClassifierNet := fun _ _ => .error (500, "down")

def okLlmNet : LlmNet := fun _ _ => .ok (.vObj [("choices", .vArr [])])

def exampleMessages : List Message := [[("role", "user"), ("content", "hi")]]

def manualBody : RequestBody :=
  [("model", .vStr ""),
   ("messages", jsonOfMessages exampleMessages),
   ("nim-llm-router", .vObj [("policy", .vStr "task_router"),
                             ("routing_strategy", .vStr "manual"),
                             ("model", .vStr "B")])]

def tritonBody : RequestBody :=
  [("model", .vStr ""),
   ("messages", jsonOfMessages exampleMessages),
   ("nim-llm-router", .vObj [("policy", .vStr "task_router"),
                             ("routing_strategy", .vStr "triton")])]

/-! ### C3 -/

/-- C3: the request forwarded downstream — built by
`modify_model_in_request(remove_nim_llm_router_params(request_body), model)`
(lines 318-319) and POSTed unchanged (line 331) — never contains the
`nim-llm-router` key, has `model` set to the selected backend's declared
model identifier whatever the caller supplied, and every other top-level
field keeps the caller's value.  Both steps are copies in the source; here
they are pure functions of the body. -/
theorem rewritten_request_frame (body : RequestBody) (model : String)
    (k : String) (h1 : k ≠ "nim-llm-router") (h2 : k ≠ "model") :
    lookupKey (modify_model_in_request (remove_nim_llm_router_params body) model)
        "nim-llm-router" = none ∧
    lookupKey (modify_model_in_request (remove_nim_llm_router_params body) model)
        "model" = some (.vStr model) ∧
    lookupKey (modify_model_in_request (remove_nim_llm_router_params body) model) k
      = lookupKey body k := by
  refine ⟨?_, ?_, ?_⟩
  · rw [modify_model_in_request, lookupKey_setKey_ne _ _ _ _ (by decide),
      remove_nim_llm_router_params, lookupKey_eraseKey_self]
  · rw [modify_model_in_request, lookupKey_setKey_self]
  · rw [modify_model_in_request, lookupKey_setKey_ne _ _ _ _ h2,
      remove_nim_llm_router_params, lookupKey_eraseKey_ne _ _ _ h1]

/-- Witness for C3 at a concrete request body and the untouched key
`messages`. -/
theorem rewritten_request_frame_witness :
    lookupKey (modify_model_in_request (remove_nim_llm_router_params manualBody)
        "model-b") "nim-llm-router" = none ∧
    lookupKey (modify_model_in_request (remove_nim_llm_router_params manualBody)
        "model-b") "model" = some (.vStr "model-b") ∧
    lookupKey (modify_model_in_request (remove_nim_llm_router_params manualBody)
        "model-b") "messages" = lookupKey manualBody "messages" :=
  rewritten_request_frame manualBody "model-b" "messages" (by decide) (by decide)

/-! ### C5 -/

/-- C5: the serialized-blob preparation returns the JSON serialization of the
message list truncated to its final 2000 characters when longer, unchanged
otherwise: the truncation yields a suffix of length `min length 2000` and is
idempotent. -/
theorem serialized_blob_truncation (ms : List Message) (l : List Char) :
    convert_messages_to_text_input (jsonOfMessages ms)
      = truncate2000 (dumpsJ (jsonOfMessages ms)) ∧
    truncate2000 l = (if 2000 < l.length then l.drop (l.length - 2000) else l) ∧
    (truncate2000 l).length = min l.length 2000 ∧
    truncate2000 l <:+ l ∧
    truncate2000 (truncate2000 l) = truncate2000 l := by
  refine ⟨rfl, rfl, ?_, ?_, ?_⟩
  · rw [truncate2000]
    split
    · rename_i hlen
      rw [List.length_drop]
      omega
    · rename_i hlen
      omega
  · rw [truncate2000]
    split
    · exact List.drop_suffix _ _
    · exact List.suffix_refl _
  · have h2 : (truncate2000 l).length ≤ 2000 := by
      rw [truncate2000]
      split
      · rw [List.length_drop]
        omega
      · omega
    generalize truncate2000 l = t at h2 ⊢
    rw [truncate2000, if_neg (by omega)]

/-! ### C9 -/

/-- C9: the threshold argument of `choose_model_with_triton` is accepted and
never read, so the chosen index is the same under any two threshold values,
for every policy, input text and classifier behaviour. -/
theorem threshold_is_inert (net : ClassifierNet) (policy : Policy)
    (text_input t1 t2 : JVal) :
    choose_model_with_triton net policy text_input t1
      = choose_model_with_triton net policy text_input t2 := rfl

/-! ### C10 -/

/-- C10: `get_policy_by_name` and `get_llm_by_name` return the first entry in
declaration order whose trimmed name equals the trimmed query — every earlier
entry fails the match — and `none` exactly when no entry matches. -/
theorem lookups_return_first_match (cfg : RouterConfig) (pol : Policy)
    (n : String) :
    (∀ p : Policy, cfg.get_policy_by_name n = some p ↔
      pyStrip p.name = pyStrip n ∧ ∃ pre post, cfg.policies = pre ++ p :: post ∧
        ∀ q ∈ pre, pyStrip q.name ≠ pyStrip n) ∧
    (cfg.get_policy_by_name n = none ↔
      ∀ q ∈ cfg.policies, pyStrip q.name ≠ pyStrip n) ∧
    (∀ llm : Llm, pol.get_llm_by_name n = some llm ↔
      pyStrip llm.name = pyStrip n ∧ ∃ pre post, pol.llms = pre ++ llm :: post ∧
        ∀ q ∈ pre, pyStrip q.name ≠ pyStrip n) ∧
    (pol.get_llm_by_name n = none ↔
      ∀ q ∈ pol.llms, pyStrip q.name ≠ pyStrip n) := by
  refine ⟨?_, ?_, ?_, ?_⟩
  · intro p
    rw [RouterConfig.get_policy_by_name, List.find?_eq_some]
    simp [beq_iff_eq]
  · rw [RouterConfig.get_policy_by_name, List.find?_eq_none]
    simp [beq_iff_eq]
  · intro llm
    rw [Policy.get_llm_by_name, List.find?_eq_some]
    simp [beq_iff_eq]
  · rw [Policy.get_llm_by_name, List.find?_eq_none]
    simp [beq_iff_eq]

/-! ### C1 -/

theorem pyMax_mem (x : ℚ) (l : List ℚ) : pyMax x l ∈ x :: l := by
  induction l generalizing x with
  | nil => simp [pyMax]
  | cons y ys ih =>
    rw [pyMax]
    have h := ih (if x < y then y else x)
    rcases List.mem_cons.mp h with h1 | h1
    · rw [h1]
      split
      · exact List.mem_cons_of_mem _ (List.mem_cons_self _ _)
      · exact List.mem_cons_self _ _
    · exact List.mem_cons_of_mem _ (List.mem_cons_of_mem _ h1)

theorem le_pyMax (x : ℚ) (l : List ℚ) : ∀ z ∈ x :: l, z ≤ pyMax x l := by
  induction l generalizing x with
  | nil =>
    intro z hz
    rw [List.mem_singleton] at hz
    rw [hz, pyMax]
  | cons y ys ih =>
    intro z hz
    rw [pyMax]
    have hx : x ≤ (if x < y then y else x) := by
      split
      · exact le_of_lt (by assumption)
      · exact le_refl x
    have hy : y ≤ (if x < y then y else x) := by
      split
      · exact le_refl y
      · exact le_of_not_lt (by assumption)
    have htop : (if x < y then y else x) ≤ pyMax (if x < y then y else x) ys :=
      ih _ _ (List.mem_cons_self _ _)
    rcases List.mem_cons.mp hz with rfl | hz1
    · exact le_trans hx htop
    · rcases List.mem_cons.mp hz1 with rfl | hz2
      · exact le_trans hy htop
      · exact ih _ z (List.mem_cons_of_mem _ hz2)

theorem getD_of_lt (l : List ℚ) (n : Nat) (h : n < l.length) :
    l.getD n 0 = l[n] := by
  rw [List.getD_eq_getElem?_getD, List.getElem?_eq_getElem h]
  rfl

theorem pyIndex_spec (l : List ℚ) (v : ℚ) (hv : v ∈ l) :
    pyIndex l v < l.length ∧ l.getD (pyIndex l v) 0 = v ∧
      ∀ j, j < pyIndex l v → l.getD j 0 ≠ v := by
  have hex : ∃ x ∈ l, (fun a => a == v) x = true := ⟨v, hv, by simp⟩
  have hlt : l.findIdx (fun a => a == v) < l.length :=
    List.findIdx_lt_length_of_exists hex
  refine ⟨hlt, ?_, ?_⟩
  · have hp := @List.findIdx_getElem _ (fun a => a == v) l hlt
    simp only [pyIndex]
    rw [getD_of_lt _ _ hlt]
    simpa using hp
  · intro j hj
    simp only [pyIndex] at hj ⊢
    have hjl : j < l.length := lt_trans hj hlt
    have hnp := @List.not_of_lt_findIdx _ (fun a => a == v) l j hj
    rw [getD_of_lt _ _ hjl]
    simpa using hnp

/-- C1: whenever classifier-based selection succeeds with index `i`, the
first output tensor's flat vector has its maximum at `i`, every position
before `i` is strictly below it (first occurrence of the maximum), and the
index is resolved positionally by `get_llm_by_index`. -/
theorem classifier_picks_first_argmax (net : ClassifierNet) (policy : Policy)
    (text_input threshold : JVal) (i : Nat)
    (h : choose_model_with_triton net policy text_input threshold = .ok i) :
    ∃ resp out rest,
      net policy.url (buildTritonRequest text_input) = .ok resp ∧
      resp.outputs = out :: rest ∧
      i < out.data.length ∧
      (∀ j, j < out.data.length → out.data.getD j 0 ≤ out.data.getD i 0) ∧
      (∀ j, j < i → out.data.getD j 0 < out.data.getD i 0) ∧
      policy.get_llm_by_index i = policy.llms[i]? := by
  rw [choose_model_with_triton] at h
  split at h
  · simp at h
  · rename_i resp hnet
    split at h
    · simp at h
    · rename_i out rest houts
      split at h
      · simp at h
      · rename_i p ps hdata
        have hi : pyIndex (p :: ps) (pyMax p ps) = i := by
          simpa using h
        have hvmem := pyMax_mem p ps
        obtain ⟨hlt, hget, hfirst⟩ := pyIndex_spec (p :: ps) (pyMax p ps) hvmem
        rw [hi] at hlt hget hfirst
        refine ⟨resp, out, rest, hnet, houts, ?_, ?_, ?_,
          get_llm_by_index_eq policy i⟩
        · rw [hdata]
          exact hlt
        · intro j hj
          rw [hdata] at hj ⊢
          rw [hget]
          have hmem : (p :: ps).getD j 0 ∈ p :: ps := by
            rw [getD_of_lt _ _ hj]
            exact List.getElem_mem hj
          exact le_pyMax p ps _ hmem
        · intro j hj
          rw [hdata]
          have hjl : j < (p :: ps).length := lt_trans hj hlt
          have hne := hfirst j hj
          have hle : (p :: ps).getD j 0 ≤ (p :: ps).getD i 0 := by
            rw [hget]
            have hmem : (p :: ps).getD j 0 ∈ p :: ps := by
              rw [getD_of_lt _ _ hjl]
              exact List.getElem_mem hjl
            exact le_pyMax p ps _ hmem
          rw [← hget] at hne
          exact lt_of_le_of_ne hle hne

/-- Witness for C1: the spec's own example vector `[0.1, 0.7, 0.2]` selects
index 1. -/
theorem classifier_picks_first_argmax_witness :
    ∃ resp out rest,
      constNet exampleResponse examplePolicy.url
          (buildTritonRequest (.vStr "hi")) = .ok resp ∧
      resp.outputs = out :: rest ∧
      1 < out.data.length ∧
      (∀ j, j < out.data.length → out.data.getD j 0 ≤ out.data.getD 1 0) ∧
      (∀ j, j < 1 → out.data.getD j 0 < out.data.getD 1 0) ∧
      examplePolicy.get_llm_by_index 1 = examplePolicy.llms[1]? :=
  classifier_picks_first_argmax (constNet exampleResponse) examplePolicy
    (.vStr "hi") (.vNum (1/2)) 1 (by rfl)

/-! ### Reduction lemmas for `route_request` -/

theorem extract_eq_of_block (body : RequestBody) (kvs : List (String × JVal))
    (pv : JVal)
    (hblock : lookupKey body "nim-llm-router" = some (.vObj kvs))
    (hpol : lookupKey kvs "policy" = some pv)
    (hpt : pyTruthy pv = true) :
    extract_nim_llm_router_params body =
      .ok (some { policy := pv,
                  routing_strategy :=
                    match lookupKey kvs "routing_strategy" with
                    | some (.vStr "manual") => some .manual
                    | some (.vStr "triton") => some .triton
                    | _ => none,
                  model := lookupKey kvs "model",
                  threshold := (lookupKey kvs "threshold").getD (.vNum (1/2)) }) := by
  have hne : kvs ≠ [] := by
    intro hnil
    rw [hnil] at hpol
    simp [lookupKey] at hpol
  have ht : pyTruthy (.vObj kvs) = true := by
    simp [pyTruthy, hne]
  rw [extract_nim_llm_router_params, hblock]
  simp only [ht, if_true, hpol, hpt]

theorem route_manual_eq (cfg : RouterConfig) (net : ClassifierNet)
    (llmNet : LlmNet) (body : RequestBody) (kvs : List (String × JVal))
    (pname m : String) (pol : Policy)
    (hblock : lookupKey body "nim-llm-router" = some (.vObj kvs))
    (hpol : lookupKey kvs "policy" = some (.vStr pname))
    (hpname : pname ≠ "")
    (hstrat : lookupKey kvs "routing_strategy" = some (.vStr "manual"))
    (hmodel : lookupKey kvs "model" = some (.vStr m))
    (hm : m ≠ "")
    (hfound : cfg.get_policy_by_name pname = some pol) :
    route_request cfg net llmNet body =
      (match choose_model_manual pol (.vStr m) with
       | .error e => .error e
       | .ok model_index =>
         match pol.get_llm_by_index model_index with
         | none => .error (.llmNotFound model_index)
         | some chosen_llm =>
           match llmNet (chosen_llm.api_base ++ "/v1/chat/completions")
               (modify_model_in_request (remove_nim_llm_router_params body)
                 chosen_llm.model) with
           | .error (status, text) => .error (.llmServiceError status text)
           | .ok response_data =>
             .ok (response_data, chosen_llm.model,
                  pol.get_llm_name_by_index model_index)) := by
  have hex := extract_eq_of_block body kvs (.vStr pname) hblock hpol
    (by simp [pyTruthy, hpname])
  rw [route_request, hex, hstrat]
  simp only [hfound, hmodel, pyTruthy, bne_iff_ne, ne_eq, hm,
    not_false_eq_true, if_true]

theorem route_triton_eq (cfg : RouterConfig) (net : ClassifierNet)
    (llmNet : LlmNet) (body : RequestBody) (kvs : List (String × JVal))
    (pname : String) (pol : Policy)
    (hblock : lookupKey body "nim-llm-router" = some (.vObj kvs))
    (hpol : lookupKey kvs "policy" = some (.vStr pname))
    (hpname : pname ≠ "")
    (hstrat : lookupKey kvs "routing_strategy" = some (.vStr "triton"))
    (hfound : cfg.get_policy_by_name pname = some pol) :
    route_request cfg net llmNet body =
      (match (match get_last_message_for_triton (extract_messages body) with
              | .error e => .error e
              | .ok triton_text =>
                choose_model_with_triton net pol triton_text
                  ((lookupKey kvs "threshold").getD (.vNum (1/2)))
              : Except RouterErr Nat) with
       | .error e => .error e
       | .ok model_index =>
         match pol.get_llm_by_index model_index with
         | none => .error (.llmNotFound model_index)
         | some chosen_llm =>
           match llmNet (chosen_llm.api_base ++ "/v1/chat/completions")
               (modify_model_in_request (remove_nim_llm_router_params body)
                 chosen_llm.model) with
           | .error (status, text) => .error (.llmServiceError status text)
           | .ok response_data =>
             .ok (response_data, chosen_llm.model,
                  pol.get_llm_name_by_index model_index)) := by
  have hex := extract_eq_of_block body kvs (.vStr pname) hblock hpol
    (by simp [pyTruthy, hpname])
  rw [route_request, hex, hstrat]
  simp only [hfound]

/-! ### C2 -/

/-- C2: a valid MANUAL directive naming a backend that exists in the resolved
policy selects exactly the (first) backend with that name, and the result is
the same under any two classifier oracles — the classifier is never
consulted. -/
theorem manual_selects_named_backend (cfg : RouterConfig)
    (net net' : ClassifierNet) (llmNet : LlmNet) (body : RequestBody)
    (kvs : List (String × JVal)) (pname m : String) (pol : Policy)
    (hblock : lookupKey body "nim-llm-router" = some (.vObj kvs))
    (hpol : lookupKey kvs "policy" = some (.vStr pname))
    (hpname : pname ≠ "")
    (hstrat : lookupKey kvs "routing_strategy" = some (.vStr "manual"))
    (hmodel : lookupKey kvs "model" = some (.vStr m))
    (hm : m ≠ "")
    (hfound : cfg.get_policy_by_name pname = some pol)
    (hexists : ∃ l ∈ pol.llms, l.name = m) :
    route_request cfg net llmNet body = route_request cfg net' llmNet body ∧
    ∃ llm, llm ∈ pol.llms ∧ llm.name = m ∧
      route_request cfg net llmNet body =
        (match llmNet (llm.api_base ++ "/v1/chat/completions")
            (modify_model_in_request (remove_nim_llm_router_params body)
              llm.model) with
         | .error (status, text) => .error (.llmServiceError status text)
         | .ok response_data => .ok (response_data, llm.model, some llm.name)) := by
  have h1 := route_manual_eq cfg net llmNet body kvs pname m pol hblock hpol
    hpname hstrat hmodel hm hfound
  have h2 := route_manual_eq cfg net' llmNet body kvs pname m pol hblock hpol
    hpname hstrat hmodel hm hfound
  refine ⟨by rw [h1, h2], ?_⟩
  obtain ⟨l0, hl0mem, hl0name⟩ := hexists
  have hpred : ∃ x ∈ pol.llms, (fun llm => llm.name == m) x = true :=
    ⟨l0, hl0mem, by simp [hl0name]⟩
  have hidx := @List.findIdx?_eq_some_of_exists _ pol.llms
    (fun llm : Llm => llm.name == m) (by simpa using hpred)
  have hlt : pol.llms.findIdx (fun llm => llm.name == m) < pol.llms.length :=
    List.findIdx_lt_length_of_exists hpred
  have hchoose : choose_model_manual pol (.vStr m)
      = .ok (pol.llms.findIdx (fun llm => llm.name == m)) := by
    rw [choose_model_manual]
    rw [show (fun llm : Llm => match (JVal.vStr m : JVal) with
          | .vStr s => llm.name == s
          | _ => false) = (fun llm : Llm => llm.name == m) from rfl]
    rw [hidx]
  set i := pol.llms.findIdx (fun llm => llm.name == m) with hidef
  have hgetelem : pol.llms[i]? = some (pol.llms.get ⟨i, hlt⟩) := by
    rw [List.getElem?_eq_getElem hlt]
    simp [List.get_eq_getElem]
  have hindex : pol.get_llm_by_index i = some (pol.llms.get ⟨i, hlt⟩) := by
    rw [get_llm_by_index_eq, hgetelem]
  have hname : (pol.llms.get ⟨i, hlt⟩).name = m := by
    have := @List.findIdx_getElem _ (fun llm : Llm => llm.name == m) pol.llms hlt
    simpa [List.get_eq_getElem] using this
  have hmem : pol.llms.get ⟨i, hlt⟩ ∈ pol.llms := by
    simpa [List.get_eq_getElem] using List.getElem_mem hlt
  refine ⟨pol.llms.get ⟨i, hlt⟩, hmem, hname, ?_⟩
  rw [h1, hchoose]
  simp only [hindex, Policy.get_llm_name_by_index]
  rfl

/-- Witness for C2: the spec's example — MANUAL directive naming `B` selects
backend `B` under two different classifier oracles (one of which fails). -/
theorem manual_selects_named_backend_witness :
    route_request exampleConfig (constNet exampleResponse) okLlmNet manualBody
      = route_request exampleConfig failNet okLlmNet manualBody ∧
    ∃ llm, llm ∈ examplePolicy.llms ∧ llm.name = "B" ∧
      route_request exampleConfig (constNet exampleResponse) okLlmNet manualBody
        = (match okLlmNet (llm.api_base ++ "/v1/chat/completions")
              (modify_model_in_request (remove_nim_llm_router_params manualBody)
                llm.model) with
           | .error (status, text) => .error (.llmServiceError status text)
           | .ok response_data =>
             .ok (response_data, llm.model, some llm.name)) :=
  manual_selects_named_backend exampleConfig (constNet exampleResponse) failNet
    okLlmNet manualBody
    [("policy", .vStr "task_router"), ("routing_strategy", .vStr "manual"),
     ("model", .vStr "B")]
    "task_router" "B" examplePolicy rfl rfl (by decide) rfl rfl (by decide)
    (by decide) ⟨llmB, by decide, rfl⟩

/-! ### C4 -/

theorem get_last_jsonOfMessages_concat (ms : List Message) (msg : Message) :
    get_last_message_for_triton (jsonOfMessages (ms ++ [msg]))
      = .ok (((msg.find? (fun p => p.1 == "content")).map
          (fun p => JVal.vStr p.2)).getD (.vStr "")) := by
  simp only [jsonOfMessages, List.map_append, List.map_singleton,
    jsonOfMessage, get_last_message_for_triton, List.getLast?_concat,
    lookupKey, List.find?_map, Option.map_map]
  rfl

/-- A classifier oracle that only answers the request built from the text
`"hi"`, and fails on any other input. -/
def pointNet : ClassifierNet := fun _ req =>
  match req.inputs with
  | [⟨_, _, _, [[JVal.vStr "hi"]]⟩] => .ok exampleResponse
  | _ => .error (404, "unexpected input")

/-- C4: under the CLASSIFIER (triton) strategy the routing outcome depends on
the classifier oracle only through the request built from the raw `content`
of the last message — the value `get_last_message_for_triton` returns: the
last message's `content` (empty string when the list is empty or the field is
absent) — and that value differs from the serialized-truncated blob
`convert_messages_to_text_input` produces. -/
theorem classifier_receives_last_message_content (cfg : RouterConfig)
    (net net' : ClassifierNet) (llmNet : LlmNet) (body : RequestBody)
    (kvs : List (String × JVal)) (pname : String) (pol : Policy) (txt : JVal)
    (hblock : lookupKey body "nim-llm-router" = some (.vObj kvs))
    (hpol : lookupKey kvs "policy" = some (.vStr pname))
    (hpname : pname ≠ "")
    (hstrat : lookupKey kvs "routing_strategy" = some (.vStr "triton"))
    (hfound : cfg.get_policy_by_name pname = some pol)
    (hlast : get_last_message_for_triton (extract_messages body) = .ok txt)
    (hagree : net pol.url (buildTritonRequest txt)
      = net' pol.url (buildTritonRequest txt)) :
    route_request cfg net llmNet body = route_request cfg net' llmNet body ∧
    (∀ ms msg, get_last_message_for_triton (jsonOfMessages (ms ++ [msg]))
      = .ok (((msg.find? (fun p => p.1 == "content")).map
          (fun p => JVal.vStr p.2)).getD (.vStr ""))) ∧
    get_last_message_for_triton (jsonOfMessages []) = .ok (.vStr "") ∧
    get_last_message_for_triton (jsonOfMessages exampleMessages)
      = .ok (.vStr "hi") ∧
    convert_messages_to_text_input (jsonOfMessages exampleMessages)
      ≠ "hi".data := by
  refine ⟨?_, get_last_jsonOfMessages_concat, rfl, rfl, by decide⟩
  rw [route_triton_eq cfg net llmNet body kvs pname pol hblock hpol hpname
    hstrat hfound,
    route_triton_eq cfg net' llmNet body kvs pname pol hblock hpol hpname
    hstrat hfound, hlast]
  simp only [choose_model_with_triton, hagree]

/-- Witness for C4: a concrete triton-strategy request whose last message
content is `"hi"`; a constant oracle and one that only accepts the request
built from `"hi"` agree, and the routing outcomes coincide. -/
theorem classifier_receives_last_message_content_witness :
    route_request exampleConfig (constNet exampleResponse) okLlmNet tritonBody
      = route_request exampleConfig pointNet okLlmNet tritonBody ∧
    (∀ ms msg, get_last_message_for_triton (jsonOfMessages (ms ++ [msg]))
      = .ok (((msg.find? (fun p => p.1 == "content")).map
          (fun p => JVal.vStr p.2)).getD (.vStr ""))) ∧
    get_last_message_for_triton (jsonOfMessages []) = .ok (.vStr "") ∧
    get_last_message_for_triton (jsonOfMessages exampleMessages)
      = .ok (.vStr "hi") ∧
    convert_messages_to_text_input (jsonOfMessages exampleMessages)
      ≠ "hi".data :=
  classifier_receives_last_message_content exampleConfig
    (constNet exampleResponse) pointNet okLlmNet tritonBody
    [("policy", .vStr "task_router"), ("routing_strategy", .vStr "triton")]
    "task_router" examplePolicy (.vStr "hi") rfl rfl (by decide) rfl
    (by decide) rfl rfl

/-! ### C6 -/

/-- Counterexample to C6: policy `task_router` has a backend named `"B"`.
The trimmed by-name lookup resolves `" B"` to it, but the MANUAL selection
path (`choose_model_manual`) compares names with plain `==`, no stripping,
so the same directive value fails. -/
theorem manual_whitespace_name_cex :
    examplePolicy.get_llm_by_name " B" = some llmB ∧
    choose_model_manual examplePolicy (.vStr " B")
      = .error (.modelNotFound (.vStr " B")) :=
  ⟨by decide, rfl⟩

/-- C6 amended: MANUAL resolution (`choose_model_manual`, which `route_request`
uses, not `Policy.get_llm_by_name`) matches the supplied name against backend
names by exact, untrimmed string equality: it returns the first index whose
backend name is exactly equal, fails when no name is exactly equal, and an
empty (or missing) name makes `route_request` fail before any lookup. -/
theorem manual_exact_name_matching (pol : Policy) (m : String) (i : Nat) :
    (choose_model_manual pol (.vStr m) = .ok i ↔
      ∃ h : i < pol.llms.length, (pol.llms.get ⟨i, h⟩).name = m ∧
        ∀ j (hj : j < pol.llms.length), j < i → (pol.llms.get ⟨j, hj⟩).name ≠ m) ∧
    (choose_model_manual pol (.vStr m) = .error (.modelNotFound (.vStr m)) ↔
      ∀ llm ∈ pol.llms, llm.name ≠ m) ∧
    (∀ (cfg : RouterConfig) (net : ClassifierNet) (llmNet : LlmNet)
        (body : RequestBody) (kvs : List (String × JVal)) (pname : String)
        (found : Policy),
      lookupKey body "nim-llm-router" = some (.vObj kvs) →
      lookupKey kvs "policy" = some (.vStr pname) →
      pname ≠ "" →
      lookupKey kvs "routing_strategy" = some (.vStr "manual") →
      lookupKey kvs "model" = some (.vStr "") →
      cfg.get_policy_by_name pname = some found →
      route_request cfg net llmNet body = .error .noModelSpecified) := by
  have hch : choose_model_manual pol (.vStr m)
      = (match pol.llms.findIdx? (fun llm : Llm => llm.name == m) with
         | some j => Except.ok j
         | none => Except.error (.modelNotFound (.vStr m))) := rfl
  refine ⟨?_, ?_, ?_⟩
  · rw [hch]
    constructor
    · intro h
      cases hfi : pol.llms.findIdx? (fun llm : Llm => llm.name == m) with
      | none => rw [hfi] at h; simp at h
      | some j =>
        rw [hfi] at h
        have hji : j = i := by simpa using h
        subst hji
        obtain ⟨hlt, hfx⟩ := List.findIdx?_eq_some_iff_findIdx_eq.mp hfi
        obtain ⟨hp, hprev⟩ := (List.findIdx_eq hlt).mp hfx
        refine ⟨hlt, by simpa using hp, ?_⟩
        intro k hk hki
        have := hprev k hki
        simpa using this
    · intro h
      obtain ⟨hlt, hname, hfirst⟩ := h
      have hfx : pol.llms.findIdx (fun llm : Llm => llm.name == m) = i := by
        refine (List.findIdx_eq hlt).mpr ⟨by simpa using hname, ?_⟩
        intro j hji
        have := hfirst j (lt_trans hji hlt) hji
        simpa using this
      have hfi : pol.llms.findIdx? (fun llm : Llm => llm.name == m) = some i :=
        List.findIdx?_eq_some_iff_findIdx_eq.mpr ⟨hlt, hfx⟩
      rw [hfi]
  · rw [hch]
    constructor
    · intro h
      cases hfi : pol.llms.findIdx? (fun llm : Llm => llm.name == m) with
      | none =>
        have := List.findIdx?_eq_none_iff.mp hfi
        intro llm hmem
        simpa using this llm hmem
      | some j => rw [hfi] at h; simp at h
    · intro h
      have hfi : pol.llms.findIdx? (fun llm : Llm => llm.name == m) = none :=
        List.findIdx?_eq_none_iff.mpr (fun llm hmem => by simpa using h llm hmem)
      rw [hfi]
  · intro cfg net llmNet body kvs pname found h1 h2 h3 h4 h5 h6
    have hex := extract_eq_of_block body kvs (.vStr pname) h1 h2
      (by simp [pyTruthy, h3])
    rw [route_request, hex, h4]
    simp only [h5, h6, pyTruthy]
    simp

/-! ### C7 -/

/-- The spec's `MissingDirective` condition, following its words: "no routing
block is present or it lacks a policy name" — the `nim-llm-router` entry is
absent or falsy, or is an object without a truthy `policy` entry. -/
def specMissingDirective (body : RequestBody) : Bool :=
  match lookupKey body "nim-llm-router" with
  | none => true
  | some (.vObj kvs) =>
    (match lookupKey kvs "policy" with
     | none => true
     | some p => !pyTruthy p)
  | some v => !pyTruthy v

theorem choose_model_manual_ne_missing (pol : Policy) (v : JVal) :
    choose_model_manual pol v ≠ .error .missingParams := by
  rw [choose_model_manual]
  split <;> simp

theorem choose_model_with_triton_ne_missing (net : ClassifierNet)
    (pol : Policy) (t thr : JVal) :
    choose_model_with_triton net pol t thr ≠ .error .missingParams := by
  rw [choose_model_with_triton]
  split
  · simp
  · split
    · simp
    · split <;> simp

theorem get_last_ne_missing (v : JVal) :
    get_last_message_for_triton v ≠ .error .missingParams := by
  cases v with
  | vArr ms =>
    simp only [get_last_message_for_triton]
    split <;> simp
  | vNull => simp [get_last_message_for_triton, pyTruthy]
  | vBool b =>
    simp only [get_last_message_for_triton]
    split <;> simp
  | vNum q =>
    simp only [get_last_message_for_triton]
    split <;> simp
  | vStr s =>
    simp only [get_last_message_for_triton]
    split <;> simp
  | vObj kvs =>
    simp only [get_last_message_for_triton]
    split <;> simp

theorem extract_error_typeError (body : RequestBody) (e : RouterErr)
    (h : extract_nim_llm_router_params body = .error e) : e = .typeError := by
  rw [extract_nim_llm_router_params] at h
  split at h
  · simp at h
  · split at h
    · split at h
      · split at h
        · simp at h
        · split at h <;> simp at h
      · exact (Except.error.inj h).symm
    · simp at h

theorem route_eq_missing_iff (cfg : RouterConfig) (net : ClassifierNet)
    (llmNet : LlmNet) (body : RequestBody) :
    route_request cfg net llmNet body = .error .missingParams ↔
      extract_nim_llm_router_params body = .ok none := by
  rw [route_request]
  cases hex : extract_nim_llm_router_params body with
  | error e =>
    have he : e = .typeError := extract_error_typeError body e hex
    subst he
    simp
  | ok ps? =>
    cases ps? with
    | none => simp
    | some ps =>
      simp only [Except.ok.injEq, reduceCtorEq, iff_false]
      intro hcontra
      split at hcontra
      · -- policy is a string
        split at hcontra
        · simp at hcontra
        · split at hcontra
          · -- the strategy selection raised: its error is never missingParams
            rename_i e heq
            have he : e = .missingParams := by simpa using hcontra
            subst he
            split at heq
            · split at heq
              · split at heq
                · exact choose_model_manual_ne_missing _ _ heq
                · simp at heq
              · simp at heq
            · split at heq
              · rename_i e2 heq2
                have he2 : e2 = .missingParams := by simpa using heq
                subst he2
                exact get_last_ne_missing _ heq2
              · exact choose_model_with_triton_ne_missing _ _ _ _ heq
            · simp at heq
          · split at hcontra
            · simp at hcontra
            · split at hcontra <;> simp at hcontra
      · simp at hcontra

theorem extract_ok_none_iff (body : RequestBody) :
    extract_nim_llm_router_params body = .ok none ↔
      specMissingDirective body = true := by
  rw [extract_nim_llm_router_params, specMissingDirective]
  cases hb : lookupKey body "nim-llm-router" with
  | none => simp
  | some v =>
    cases v with
    | vObj kvs =>
      dsimp only
      by_cases hk : kvs = []
      · subst hk
        simp [pyTruthy, lookupKey]
      · have ht : pyTruthy (.vObj kvs) = true := by
          simp [pyTruthy, hk]
        rw [ht]
        simp only [if_true]
        cases hp : lookupKey kvs "policy" with
        | none => simp
        | some p =>
          by_cases htp : pyTruthy p = true
          · simp [htp]
          · simp only [Bool.not_eq_true] at htp
            simp [htp]
    | vNull => simp [pyTruthy]
    | vBool b => cases b <;> simp [pyTruthy]
    | vNum q =>
      by_cases hq : q = 0 <;> simp [pyTruthy, hq]
    | vStr s =>
      by_cases hs : s = "" <;> simp [pyTruthy, hs]
    | vArr xs =>
      by_cases hx : xs = [] <;> simp [pyTruthy, hx]

/-- C7: routing fails with the missing-directive error exactly when the
`nim-llm-router` block is absent (or falsy) or lacks a truthy `policy` entry
(`specMissingDirective`); the equivalence holds for every registry and both
network oracles, so in that case the outcome is fixed before policy
resolution, backend selection, or any network call. -/
theorem missing_directive_iff (cfg : RouterConfig) (net : ClassifierNet)
    (llmNet : LlmNet) (body : RequestBody) :
    route_request cfg net llmNet body = .error .missingParams ↔
      specMissingDirective body = true :=
  (route_eq_missing_iff cfg net llmNet body).trans (extract_ok_none_iff body)

/-! ### C8 -/

def rawLlmOk : RawLlm :=
  ⟨some "B", some "https://b.example", some "key-b", some "model-b"⟩

def rawPolicyP : RawPolicy :=
  ⟨some "p", some "http://triton.example/infer", some [rawLlmOk]⟩

/-- Counterexample to C8: a configuration source with two policies of the
same name `"p"` loads successfully — `load_config` has no duplicate-name
check of any kind. -/
theorem duplicate_policy_names_accepted_cex :
    RouterConfig.load_config [rawPolicyP, rawPolicyP]
      = .ok ⟨[⟨"p", "http://triton.example/infer",
               [⟨"B", "https://b.example", "key-b", "model-b"⟩]⟩,
              ⟨"p", "http://triton.example/infer",
               [⟨"B", "https://b.example", "key-b", "model-b"⟩]⟩]⟩ := rfl

/-- All four required fields of a backend record are present. -/
def RawLlm.complete (r : RawLlm) : Bool :=
  r.name.isSome && r.api_base.isSome && r.api_key.isSome && r.model.isSome

/-- All required fields of a policy record and its backend records are
present. -/
def RawPolicy.complete (r : RawPolicy) : Bool :=
  r.name.isSome && r.url.isSome &&
    (match r.llms with
     | none => false
     | some ls => ls.all RawLlm.complete)

theorem exceptBind_ok {e a b : Type} (x : a) (f : a → Except e b) :
    (Except.ok x >>= f) = f x := rfl

theorem exceptBind_error {e a b : Type} (x : e) (f : a → Except e b) :
    ((Except.error x : Except e a) >>= f) = Except.error x := rfl

theorem loadLlm_complete (r : RawLlm) (h : r.complete = true) :
    ∃ l, loadLlm r = .ok l := by
  rcases r with ⟨n, b, k, m⟩
  cases n <;> cases b <;> cases k <;> cases m <;>
    first
      | exact ⟨_, rfl⟩
      | simp [RawLlm.complete] at h

theorem mapM_ok_of_all {α β : Type} (f : α → Except ConfigErr β) (l : List α)
    (h : ∀ x ∈ l, ∃ y, f x = .ok y) :
    ∃ ys, l.mapM f = .ok ys ∧ ys.length = l.length := by
  induction l with
  | nil => exact ⟨[], rfl, rfl⟩
  | cons a t ih =>
    obtain ⟨y, hy⟩ := h a (List.mem_cons_self _ _)
    obtain ⟨ys, hys, hlen⟩ := ih (fun x hx => h x (List.mem_cons_of_mem _ hx))
    refine ⟨y :: ys, ?_, by simp [hlen]⟩
    rw [List.mapM_cons, hy, hys]
    rfl

theorem loadPolicy_complete (r : RawPolicy) (h : r.complete = true) :
    ∃ p, loadPolicy r = .ok p := by
  rcases r with ⟨n, u, ls?⟩
  cases ls? with
  | none => simp [RawPolicy.complete] at h
  | some ls =>
    have hall : ∀ x ∈ ls, ∃ y, loadLlm x = .ok y := by
      intro x hx
      apply loadLlm_complete
      simp [RawPolicy.complete, List.all_eq_true] at h
      exact h.2 x hx
    obtain ⟨ys, hys, _⟩ := mapM_ok_of_all loadLlm ls hall
    cases n with
    | none => simp [RawPolicy.complete] at h
    | some nv =>
      cases u with
      | none => simp [RawPolicy.complete] at h
      | some uv =>
        refine ⟨⟨nv, uv, ys⟩, ?_⟩
        have hform : loadPolicy ⟨some nv, some uv, some ls⟩
            = (ls.mapM loadLlm >>=
                fun llms => Except.ok ⟨nv, uv, llms⟩) := rfl
        rw [hform, hys, exceptBind_ok]

theorem mapM_ne_ok_of_mem {α β : Type} (f : α → Except ConfigErr β)
    (l : List α) (x : α) (hx : x ∈ l) (hf : ∀ y, f x ≠ .ok y) :
    ∀ ys, l.mapM f ≠ .ok ys := by
  induction l with
  | nil => cases hx
  | cons a t ih =>
    intro ys hys
    rw [List.mapM_cons] at hys
    cases hfa : f a with
    | error e =>
      rw [hfa] at hys
      simp [exceptBind_error] at hys
    | ok b =>
      rw [hfa] at hys
      rcases List.mem_cons.mp hx with rfl | hxt
      · exact hf b hfa
      · cases hmt : t.mapM f with
        | error e =>
          rw [hmt] at hys
          simp [exceptBind_ok, exceptBind_error] at hys
        | ok zs => exact ih hxt zs hmt

/-- C8 amended: loading fails (a `KeyError`) whenever a required field is
missing from a policy or backend record, but duplicate policy names are NOT
rejected: any list of complete policy records — duplicates included — loads
successfully, one loaded policy per record. -/
theorem load_config_rejects_missing_fields_not_duplicates
    (pds : List RawPolicy)
    (h : ∀ pd ∈ pds, RawPolicy.complete pd = true) :
    (∃ cfg, RouterConfig.load_config pds = .ok cfg ∧
      cfg.policies.length = pds.length) ∧
    (∀ (qs : List RawPolicy) (q : RawPolicy), q ∈ qs → q.name = none →
      ∀ cfg, RouterConfig.load_config qs ≠ .ok cfg) := by
  constructor
  · have hall : ∀ pd ∈ pds, ∃ p, loadPolicy pd = .ok p :=
      fun pd hpd => loadPolicy_complete pd (h pd hpd)
    obtain ⟨ps, hps, hlen⟩ := mapM_ok_of_all loadPolicy pds hall
    refine ⟨⟨ps⟩, ?_, by simpa using hlen⟩
    have hform : RouterConfig.load_config pds
        = (pds.mapM loadPolicy >>= fun policies => Except.ok ⟨policies⟩) := rfl
    rw [hform, hps, exceptBind_ok]
  · intro qs q hq hname cfg hcfg
    have hqerr : ∀ p, loadPolicy q ≠ .ok p := by
      intro p hp
      rcases q with ⟨qn, qu, qls⟩
      simp only at hname
      subst hname
      cases qls with
      | none => simp [loadPolicy] at hp
      | some ls =>
        have hform : loadPolicy ⟨none, qu, some ls⟩
            = (ls.mapM loadLlm >>=
                fun _ => Except.error (ConfigErr.keyError "name")) := rfl
        rw [hform] at hp
        cases hm : ls.mapM loadLlm with
        | error e =>
          rw [hm] at hp
          simp [exceptBind_error] at hp
        | ok ys =>
          rw [hm] at hp
          simp [exceptBind_ok] at hp
    have hform : RouterConfig.load_config qs
        = (qs.mapM loadPolicy >>= fun policies => Except.ok ⟨policies⟩) := rfl
    rw [hform] at hcfg
    cases hm : qs.mapM loadPolicy with
    | error e =>
      rw [hm] at hcfg
      simp [exceptBind_error] at hcfg
    | ok ps => exact mapM_ne_ok_of_mem loadPolicy qs q hq hqerr ps hm

/-- Witness for the amended C8: the duplicate-name configuration loads with
both policies, and a record with a missing name can never load. -/
theorem load_config_rejects_missing_fields_not_duplicates_witness :
    (∃ cfg, RouterConfig.load_config [rawPolicyP, rawPolicyP] = .ok cfg ∧
      cfg.policies.length = [rawPolicyP, rawPolicyP].length) ∧
    (∀ (qs : List RawPolicy) (q : RawPolicy), q ∈ qs → q.name = none →
      ∀ cfg, RouterConfig.load_config qs ≠ .ok cfg) :=
  load_config_rejects_missing_fields_not_duplicates [rawPolicyP, rawPolicyP]
    (by decide)
